import Mathlib

/-!
Verification of the mock storefront service layer (`script.js`).

The service layer (`mockApi`) keeps a cart — a mapping from product id to
quantity — serialized in browser local storage, computes derived pricing
with 2-decimal rounding, performs a fake checkout, and a fake login flow.
We embed the data model and each operation as a pure Lean function:
JavaScript numbers become `ℚ` (quantities `ℤ`), decimal rounding
`+x.toFixed(2)` becomes `round2`, the stored JS object becomes an
association list with unique keys, and operations thread the stored cart
explicitly (each mutating operation returns the post-storage state).
Simulated latency (`wait`) is timing-only and is not modelled.
-/

/-- A catalog product: `{ id, name, price, img }` from `MOCK_PRODUCTS`. -/
structure Product where
  id : String
  name : String
  price : ℚ
  img : String
deriving DecidableEq

/-- The fixed catalog `MOCK_PRODUCTS` of `script.js`. -/
def MOCK_PRODUCTS : List Product :=
  [ { id := "p1", name := "Classic Hoodie", price := 45, img := "images/product1.jpg" },
    { id := "p2", name := "Stylish Jacket", price := 70, img := "images/product2.jpg" },
    { id := "p3", name := "Sporty Sneakers", price := 60, img := "images/product3.jpg" },
    { id := "p4", name := "Summer T-Shirt", price := 30, img := "images/product4.jpg" } ]

/-- The persisted cart mapping `{ productId: qty }`: a JS object, i.e. an
association list with unique keys (insertion assigns in place for an
existing key and appends a fresh key at the end). -/
abbrev Cart := List (String × Int)

/-- Property read `cart[productId]` (as an `Option`). -/
def cartGet : Cart → String → Option Int
  | [], _ => none
  | (k, v) :: rest, pid => if k = pid then some v else cartGet rest pid

/-- Property write `cart[productId] = v`: replaces the value of an existing
key in place, appends a fresh key at the end. -/
def setEntry : Cart → String → Int → Cart
  | [], pid, v => [(pid, v)]
  | (k, w) :: rest, pid, v =>
    if k = pid then (pid, v) :: rest else (k, w) :: setEntry rest pid v

/-- Property delete `delete cart[productId]`: removes the key (keys are
unique in a JS object, so removing every occurrence is the same map). -/
def eraseEntry : Cart → String → Cart
  | [], _ => []
  | (k, w) :: rest, pid =>
    if k = pid then eraseEntry rest pid else (k, w) :: eraseEntry rest pid

/-- The two failure kinds thrown by the service layer:
`Error('Product not found')` and `Error('Cart is empty')`. -/
inductive ApiError where
  | notFound
  | emptyCart
deriving DecidableEq

/-- Decimal rounding to 2 places, `+x.toFixed(2)` (round to nearest,
exact decimal arithmetic; equals `(round (100 * x) : ℚ) / 100`). -/
def round2 (x : ℚ) : ℚ := (⌊100 * x + 1 / 2⌋ : ℚ) / 100

/-- Catalog membership test `MOCK_PRODUCTS.find(p => p.id === productId)`
succeeding. -/
def catalogHas (pid : String) : Bool :=
  (MOCK_PRODUCTS.find? (fun p => p.id == pid)).isSome

/-- Quantity read with default, `cart[productId] || 0`. -/
def lookupQty (cart : Cart) (pid : String) : Int := (cartGet cart pid).getD 0

/-- `mockApi.addToCart(productId, qty)`: validates the id against the
catalog (throwing `notFound` before any storage access), then increments
the stored quantity and writes the mapping back. Returns the thrown error
or the updated raw mapping, paired with the post-storage state. -/
def addToCart (cart : Cart) (pid : String) (qty : Int) :
    Except ApiError Cart × Cart :=
  match MOCK_PRODUCTS.find? (fun p => p.id == pid) with
  | none => (.error .notFound, cart)
  | some _ =>
    let c2 := setEntry cart pid (lookupQty cart pid + qty)
    (.ok c2, c2)

/-- `mockApi.setCartQuantity(productId, qty)`: deletes the entry when
`qty <= 0`, otherwise overwrites it; always writes the mapping back and
never throws. Returns the post-storage state (also the returned mapping). -/
def setCartQuantity (cart : Cart) (pid : String) (qty : Int) : Cart :=
  if qty ≤ 0 then eraseEntry cart pid else setEntry cart pid qty

/-- `mockApi.removeFromCart(productId)`: deletes the entry and writes the
mapping back; never throws. Returns the post-storage state. -/
def removeFromCart (cart : Cart) (pid : String) : Cart :=
  eraseEntry cart pid

/-- A derived cart line item: the catalog product (or the zero-price
placeholder `{ id: pid, name: pid, price: 0 }`, which has no `img`) spread
together with `qty` and the rounded line total. -/
structure CartItem where
  id : String
  name : String
  price : ℚ
  img : Option String
  qty : Int
  total : ℚ
deriving DecidableEq

/-- One line item of `mockApi.getCart`:
`{ ...p, qty, total: +(p.price * qty).toFixed(2) }`. -/
def mkItem : String × Int → CartItem
  | (pid, qty) =>
    match MOCK_PRODUCTS.find? (fun p => p.id == pid) with
    | some p =>
      { id := p.id, name := p.name, price := p.price, img := some p.img,
        qty := qty, total := round2 (p.price * (qty : ℚ)) }
    | none =>
      { id := pid, name := pid, price := 0, img := none,
        qty := qty, total := round2 (0 * (qty : ℚ)) }

/-- The joined line items of `mockApi.getCart` (`Object.entries(cart).map`). -/
def lineItems (cart : Cart) : List CartItem := cart.map mkItem

/-- The unrounded subtotal `items.reduce((s, it) => s + it.total, 0)`. -/
def rawSubtotal (cart : Cart) : ℚ :=
  (lineItems cart).foldl (fun s it => s + it.total) 0

/-- The result object of `mockApi.getCart`. -/
structure CartView where
  items : List CartItem
  subtotal : ℚ
  shipping : ℚ
  tax : ℚ
  total : ℚ
deriving DecidableEq

/-- `mockApi.getCart()`: joins entries against the catalog and computes the
summary — subtotal, flat shipping 5.00 when any items exist, 7% tax, and
total, each rounded to 2 decimals independently. Pure read. -/
def getCart (cart : Cart) : CartView :=
  let items := lineItems cart
  let subtotal := rawSubtotal cart
  let shipping : ℚ := if items.length > 0 then 5 else 0
  let tax := round2 (subtotal * (7 / 100))
  let total := round2 (subtotal + shipping + tax)
  { items := items, subtotal := round2 subtotal, shipping := shipping,
    tax := tax, total := total }

/-- The time-based order id `'ORD-' + Date.now()` of `mockApi.checkout`. -/
def orderId (now : Nat) : String := "ORD-" ++ toString now

/-- `mockApi.checkout(orderData)`: throws `emptyCart` when the stored
mapping has no keys (leaving storage untouched); otherwise generates the
time-based order id and overwrites storage with `{}`. Returns the thrown
error or the order id, paired with the post-storage state. -/
def checkout (cart : Cart) (now : Nat) : Except ApiError String × Cart :=
  if cart.length = 0 then (.error .emptyCart, cart)
  else (.ok (orderId now), [])

/-- Session storage and login model follow below; first, arithmetic and
association-list lemmas shared by the claim theorems. -/

def IsCent (x : ℚ) : Prop := ∃ n : ℤ, x = n / 100

theorem round2_eq_round_div (x : ℚ) : round2 x = (round (100 * x) : ℤ) / 100 := by
  rw [round2, round_eq]

theorem isCent_round2 (x : ℚ) : IsCent (round2 x) := ⟨⌊100 * x + 1 / 2⌋, rfl⟩

theorem isCent_add {x y : ℚ} (hx : IsCent x) (hy : IsCent y) : IsCent (x + y) := by
  obtain ⟨m, rfl⟩ := hx
  obtain ⟨n, rfl⟩ := hy
  exact ⟨m + n, by push_cast; ring⟩

theorem isCent_zero : IsCent 0 := ⟨0, by norm_num⟩

theorem isCent_five : IsCent 5 := ⟨500, by norm_num⟩

theorem round2_eq_self {x : ℚ} (hx : IsCent x) : round2 x = x := by
  obtain ⟨n, rfl⟩ := hx
  have h : (100 : ℚ) * ((n : ℚ) / 100) = (n : ℚ) := by field_simp
  rw [round2_eq_round_div, h, round_intCast]

theorem isCent_foldl (l : List CartItem) (hl : ∀ it ∈ l, IsCent it.total) :
    ∀ a : ℚ, IsCent a → IsCent (l.foldl (fun s it => s + it.total) a) := by
  induction l with
  | nil => intro a ha; exact ha
  | cons it rest ih =>
    intro a ha
    exact ih (fun x hx => hl x (List.mem_cons_of_mem _ hx)) _
      (isCent_add ha (hl it (List.mem_cons_self _ _)))

theorem mkItem_total_isCent (e : String × Int) : IsCent (mkItem e).total := by
  obtain ⟨pid, qty⟩ := e
  cases h : MOCK_PRODUCTS.find? (fun p => p.id == pid) with
  | none => simp only [mkItem, h]; exact isCent_round2 _
  | some p => simp only [mkItem, h]; exact isCent_round2 _

theorem rawSubtotal_isCent (c : Cart) : IsCent (rawSubtotal c) := by
  refine isCent_foldl _ ?_ 0 isCent_zero
  intro it hit
  obtain ⟨e, _, rfl⟩ := List.mem_map.mp hit
  exact mkItem_total_isCent e

theorem mkItem_id (e : String × Int) : (mkItem e).id = e.1 := by
  obtain ⟨pid, qty⟩ := e
  cases h : MOCK_PRODUCTS.find? (fun p => p.id == pid) with
  | none => simp [mkItem, h]
  | some p =>
    have hp : (fun q => q.id == pid) p = true :=
      @List.find?_some _ (fun q => q.id == pid) p MOCK_PRODUCTS h
    have hid : p.id = pid := by simpa using hp
    simp [mkItem, h, hid]

theorem cartGet_setEntry_self (c : Cart) (pid : String) (v : Int) :
    cartGet (setEntry c pid v) pid = some v := by
  induction c with
  | nil => simp [setEntry, cartGet]
  | cons e rest ih =>
    obtain ⟨k, w⟩ := e
    by_cases hk : k = pid
    · simp [setEntry, hk, cartGet]
    · simp [setEntry, hk, cartGet, ih]

theorem cartGet_eraseEntry_self (c : Cart) (pid : String) :
    cartGet (eraseEntry c pid) pid = none := by
  induction c with
  | nil => simp [eraseEntry, cartGet]
  | cons e rest ih =>
    obtain ⟨k, w⟩ := e
    by_cases hk : k = pid
    · simp [eraseEntry, hk, ih]
    · simp [eraseEntry, hk, cartGet, ih]

theorem eraseEntry_idem (c : Cart) (pid : String) :
    eraseEntry (eraseEntry c pid) pid = eraseEntry c pid := by
  induction c with
  | nil => simp [eraseEntry]
  | cons e rest ih =>
    obtain ⟨k, w⟩ := e
    by_cases hk : k = pid
    · simp [eraseEntry, hk, ih]
    · simp [eraseEntry, hk, ih]

theorem cartGet_eq_none_iff (c : Cart) (pid : String) :
    cartGet c pid = none ↔ ∀ e ∈ c, e.1 ≠ pid := by
  induction c with
  | nil => simp [cartGet]
  | cons e rest ih =>
    obtain ⟨k, w⟩ := e
    by_cases hk : k = pid
    · simp [cartGet, hk]
    · simp [cartGet, hk, ih]

theorem eraseEntry_of_absent {c : Cart} {pid : String}
    (h : cartGet c pid = none) : eraseEntry c pid = c := by
  induction c with
  | nil => simp [eraseEntry]
  | cons e rest ih =>
    obtain ⟨k, w⟩ := e
    by_cases hk : k = pid
    · simp [cartGet, hk] at h
    · simp [cartGet, hk] at h
      simp [eraseEntry, hk, ih h]

theorem mem_setEntry {c : Cart} {pid : String} {v : Int} {e : String × Int}
    (h : e ∈ setEntry c pid v) : e = (pid, v) ∨ e ∈ c := by
  induction c with
  | nil => simp [setEntry] at h; simp [h]
  | cons f rest ih =>
    obtain ⟨k, w⟩ := f
    by_cases hk : k = pid
    · simp [setEntry, hk] at h
      rcases h with h | h
      · exact Or.inl (by simp [h])
      · exact Or.inr (List.mem_cons_of_mem _ h)
    · simp [setEntry, hk] at h
      rcases h with h | h
      · exact Or.inr (by simp [h])
      · rcases ih h with h' | h'
        · exact Or.inl h'
        · exact Or.inr (List.mem_cons_of_mem _ h')

theorem mem_eraseEntry {c : Cart} {pid : String} {e : String × Int}
    (h : e ∈ eraseEntry c pid) : e ∈ c := by
  induction c with
  | nil => simp [eraseEntry] at h
  | cons f rest ih =>
    obtain ⟨k, w⟩ := f
    by_cases hk : k = pid
    · simp only [eraseEntry, if_pos hk] at h
      exact List.mem_cons_of_mem _ (ih h)
    · simp only [eraseEntry, if_neg hk] at h
      rcases List.mem_cons.mp h with h' | h'
      · exact h' ▸ List.mem_cons_self _ _
      · exact List.mem_cons_of_mem _ (ih h')

theorem cartGet_some_mem {c : Cart} {pid : String} {v : Int}
    (h : cartGet c pid = some v) : (pid, v) ∈ c := by
  induction c with
  | nil => simp [cartGet] at h
  | cons f rest ih =>
    obtain ⟨k, w⟩ := f
    by_cases hk : k = pid
    · simp [cartGet, hk] at h
      simp [hk, h]
    · simp [cartGet, hk] at h
      exact List.mem_cons_of_mem _ (ih h)


/-- Outcome trichotomy for one serialized value in local storage: the key
is missing, the stored text is rejected by `JSON.parse` (which throws), or
it parses to a value of the expected shape. -/
inductive StoredVal (α : Type) where
  | absent
  | corrupt (raw : String)
  | parsed (v : α)
deriving DecidableEq

/-- `mockApi._readCart()`: `raw ? JSON.parse(raw) : {}` inside
`try ... catch { return {} }` — a missing key and unparseable text both
give the empty mapping. -/
def readCart : StoredVal Cart → Cart
  | .absent => []
  | .corrupt _ => []
  | .parsed c => c

/-- The persisted user record `{ email }` under `fh_user`. -/
structure UserRec where
  email : String
deriving DecidableEq

/-- `mockApi.getCurrentUser()`: `JSON.parse(localStorage.getItem('fh_user'))
|| null` inside `try ... catch { return null }` — a missing key (`null`
input) and unparseable text both give `null`. -/
def getCurrentUser : StoredVal UserRec → Option UserRec
  | .absent => none
  | .corrupt _ => none
  | .parsed u => some u

/-- The two session storage keys `fh_token` and `fh_user`. -/
structure SessionState where
  fh_token : StoredVal String
  fh_user : StoredVal UserRec
deriving DecidableEq

/-- Browser built-in base64 encoder `btoa` (not part of this repository):
an encoding of the text whose exact output no claim depends on, abstracted
as the identity encoding. -/
def btoa (s : String) : String := s

/-- The result object of `mockApi.login`. -/
structure LoginRes where
  success : Bool
  token : String
  user : UserRec
deriving DecidableEq

/-- `mockApi.login(email, password)`: accepts any pair (the password is
never inspected), stores the derived token under `fh_token` and
`{ email }` under `fh_user`, and returns success. -/
def login (st : SessionState) (email password : String) (now : Nat) :
    LoginRes × SessionState :=
  let token := "fake-token-" ++ btoa (email ++ ":" ++ toString now)
  ({ success := true, token := token, user := { email := email } },
   { fh_token := .parsed token, fh_user := .parsed { email := email } })

/-- `mockApi.logout()`: removes both keys unconditionally. -/
def logout (st : SessionState) : SessionState :=
  { fh_token := .absent, fh_user := .absent }

/-- Invariant of the spec's data model: every stored quantity is positive. -/
def AllPos (c : Cart) : Prop := ∀ e ∈ c, 0 < e.2

/-- Decimal digit sequence of a natural number, most significant first
(reference rendering used to reason about `Nat.repr`). -/
def decDigits (n : Nat) : List Char :=
  if h : n < 10 then [Nat.digitChar n]
  else decDigits (n / 10) ++ [Nat.digitChar (n % 10)]
termination_by n
decreasing_by exact Nat.div_lt_self (by omega) (by norm_num)

theorem toDigitsCore_eq :
    ∀ (fuel n : Nat) (ds : List Char), n < fuel →
      Nat.toDigitsCore 10 fuel n ds = decDigits n ++ ds := by
  intro fuel
  induction fuel with
  | zero => intro n ds h; omega
  | succ fuel ih =>
    intro n ds h
    by_cases h0 : n / 10 = 0
    · have hn : n < 10 := by omega
      have hm : n % 10 = n := Nat.mod_eq_of_lt hn
      simp [Nat.toDigitsCore, h0, decDigits, hn, hm]
    · have hn : ¬ n < 10 := by
        intro hlt
        exact h0 (Nat.div_eq_of_lt hlt)
      have hfuel : n / 10 < fuel := by
        have h1 : n / 10 < n := Nat.div_lt_self (by omega) (by norm_num)
        omega
      rw [show Nat.toDigitsCore 10 (fuel + 1) n ds
            = Nat.toDigitsCore 10 fuel (n / 10) (Nat.digitChar (n % 10) :: ds) by
          simp [Nat.toDigitsCore, h0]]
      rw [ih _ _ hfuel]
      rw [show decDigits n = decDigits (n / 10) ++ [Nat.digitChar (n % 10)] by
          rw [decDigits]; simp [hn]]
      simp

/-- Numeric value of a decimal digit character. -/
def digitVal (c : Char) : Nat := c.toNat - 48

theorem digitVal_digitChar {d : Nat} (h : d < 10) :
    digitVal (Nat.digitChar d) = d := by
  interval_cases d <;> decide

/-- Value of a digit-character list read in base 10. -/
def decVal (l : List Char) : Nat := l.foldl (fun a c => 10 * a + digitVal c) 0

theorem decVal_decDigits (n : Nat) : decVal (decDigits n) = n := by
  induction n using Nat.strong_induction_on with
  | _ n ih =>
    by_cases h : n < 10
    · rw [decDigits]
      simp [h, decVal, digitVal_digitChar h]
    · rw [decDigits]
      simp only [h, dite_false]
      have hdiv : n / 10 < n := Nat.div_lt_self (by omega) (by norm_num)
      have hmod : n % 10 < 10 := Nat.mod_lt _ (by norm_num)
      calc decVal (decDigits (n / 10) ++ [Nat.digitChar (n % 10)])
          = 10 * decVal (decDigits (n / 10)) + digitVal (Nat.digitChar (n % 10)) := by
            simp [decVal, List.foldl_append]
        _ = 10 * (n / 10) + n % 10 := by
            rw [ih _ hdiv, digitVal_digitChar hmod]
        _ = n := Nat.div_add_mod n 10

theorem natRepr_injective : Function.Injective Nat.repr := by
  intro a b h
  have hd : Nat.toDigits 10 a = Nat.toDigits 10 b := by
    have h2 := congrArg String.data h
    simpa [Nat.repr, List.asString] using h2
  have ha : Nat.toDigits 10 a = decDigits a := by
    rw [Nat.toDigits, toDigitsCore_eq _ _ _ (Nat.lt_succ_self a), List.append_nil]
  have hb : Nat.toDigits 10 b = decDigits b := by
    rw [Nat.toDigits, toDigitsCore_eq _ _ _ (Nat.lt_succ_self b), List.append_nil]
  have := congrArg decVal (ha ▸ hb ▸ hd)
  rwa [decVal_decDigits, decVal_decDigits] at this

theorem orderId_injective : Function.Injective orderId := by
  intro a b h
  have hd := congrArg String.data h
  simp only [orderId, String.data_append] at hd
  have h2 := List.append_cancel_left hd
  exact natRepr_injective (String.ext h2)

/-- C1: for every non-empty cart, the summary of the read-cart-with-pricing
operation satisfies total = round2(subtotal) + shipping + tax, where the
subtotal is the sum of the line totals, shipping is exactly 5 (item count
positive), tax is round2 of 7% of the subtotal, and subtotal, tax and total
are each rounded to 2 decimals independently. -/
theorem getCart_summary_invariant (c : Cart) (h : c ≠ []) :
    (getCart c).total = round2 (rawSubtotal c) + (getCart c).shipping + (getCart c).tax
    ∧ (getCart c).shipping = 5
    ∧ (getCart c).subtotal = round2 (rawSubtotal c)
    ∧ (getCart c).tax = round2 (rawSubtotal c * (7 / 100))
    ∧ (getCart c).total = round2 (rawSubtotal c + (getCart c).shipping + (getCart c).tax) := by
  have hlen : 0 < (lineItems c).length := by
    simp only [lineItems, List.length_map]
    exact List.length_pos.mpr h
  have hship : (getCart c).shipping = 5 := by
    simp [getCart, hlen]
  have htax : (getCart c).tax = round2 (rawSubtotal c * (7 / 100)) := by
    simp [getCart]
  have hsub : (getCart c).subtotal = round2 (rawSubtotal c) := by
    simp [getCart]
  have htot : (getCart c).total
      = round2 (rawSubtotal c + (getCart c).shipping + (getCart c).tax) := by
    simp [getCart]
  have hcent : IsCent (rawSubtotal c + (getCart c).shipping + (getCart c).tax) := by
    refine isCent_add (isCent_add (rawSubtotal_isCent c) ?_) ?_
    · rw [hship]; exact isCent_five
    · rw [htax]; exact isCent_round2 _
  have heq : (getCart c).total = rawSubtotal c + (getCart c).shipping + (getCart c).tax := by
    rw [htot, round2_eq_self hcent]
  refine ⟨?_, hship, hsub, htax, htot⟩
  rw [heq, round2_eq_self (rawSubtotal_isCent c)]

/-- Witness for C1 at the concrete cart {p1: 2}. -/
theorem getCart_summary_invariant_witness :
    ([("p1", 2)] : Cart) ≠ []
    ∧ ((getCart [("p1", 2)]).total
        = round2 (rawSubtotal [("p1", 2)]) + (getCart [("p1", 2)]).shipping
          + (getCart [("p1", 2)]).tax
      ∧ (getCart [("p1", 2)]).shipping = 5
      ∧ (getCart [("p1", 2)]).subtotal = round2 (rawSubtotal [("p1", 2)])
      ∧ (getCart [("p1", 2)]).tax = round2 (rawSubtotal [("p1", 2)] * (7 / 100))
      ∧ (getCart [("p1", 2)]).total
        = round2 (rawSubtotal [("p1", 2)] + (getCart [("p1", 2)]).shipping
            + (getCart [("p1", 2)]).tax)) :=
  ⟨by simp, getCart_summary_invariant [("p1", 2)] (by simp)⟩

/-- C2: checkout on an empty stored mapping fails with the EmptyCart
condition and leaves storage unchanged; on a non-empty mapping it clears
the persisted mapping entirely and returns the time-based order id, which
is distinct for distinct call times. -/
theorem checkout_spec (c : Cart) (now : Nat) :
    (c = [] → checkout c now = (.error .emptyCart, c))
    ∧ (c ≠ [] → checkout c now = (.ok (orderId now), []))
    ∧ Function.Injective orderId := by
  refine ⟨?_, ?_, orderId_injective⟩
  · intro hc; subst hc; simp [checkout]
  · intro hc
    rw [checkout, if_neg (by simpa [List.length_eq_zero] using hc)]

/-- Witness for C2 at the empty cart and at the cart {p1: 2}. -/
theorem checkout_spec_witness :
    checkout ([] : Cart) 7 = (.error .emptyCart, [])
    ∧ checkout [("p1", 2)] 7 = (.ok (orderId 7), []) :=
  ⟨(checkout_spec [] 7).1 rfl, (checkout_spec [("p1", 2)] 7).2.1 (by simp)⟩

/-- C3: add-to-cart fails with the NotFound condition exactly when the id
is not in the catalog; on success the stored quantity becomes the previous
quantity (0 when absent) plus the given one and the mapping is returned,
so two sequential adds of q1 and q2 starting from an absent entry store
q1 + q2. -/
theorem addToCart_spec (c : Cart) (pid : String) (q1 q2 : Int) :
    (catalogHas pid = false → addToCart c pid q1 = (.error .notFound, c))
    ∧ (catalogHas pid = true →
        (addToCart c pid q1).1 = .ok (addToCart c pid q1).2
        ∧ cartGet (addToCart c pid q1).2 pid = some (lookupQty c pid + q1))
    ∧ (catalogHas pid = true → cartGet c pid = none →
        cartGet (addToCart (addToCart c pid q1).2 pid q2).2 pid = some (q1 + q2)) := by
  refine ⟨?_, ?_, ?_⟩
  · intro hf
    cases hfind : MOCK_PRODUCTS.find? (fun p => p.id == pid) with
    | none => simp [addToCart, hfind]
    | some p => simp [catalogHas, hfind] at hf
  · intro ht
    have ht' : (MOCK_PRODUCTS.find? (fun p => p.id == pid)).isSome = true := ht
    obtain ⟨p, hfind⟩ := Option.isSome_iff_exists.mp ht'
    constructor
    · simp [addToCart, hfind]
    · simp [addToCart, hfind, cartGet_setEntry_self]
  · intro ht h0
    have ht' : (MOCK_PRODUCTS.find? (fun p => p.id == pid)).isSome = true := ht
    obtain ⟨p, hfind⟩ := Option.isSome_iff_exists.mp ht'
    have hq : lookupQty c pid = 0 := by simp [lookupQty, h0]
    have h1 : (addToCart c pid q1).2 = setEntry c pid (lookupQty c pid + q1) := by
      simp [addToCart, hfind]
    have hget1 : cartGet (addToCart c pid q1).2 pid = some q1 := by
      rw [h1, hq, cartGet_setEntry_self]
      norm_num
    have h2 : (addToCart (addToCart c pid q1).2 pid q2).2
        = setEntry (addToCart c pid q1).2 pid
            (lookupQty (addToCart c pid q1).2 pid + q2) := by
      simp [addToCart, hfind]
    have hl1 : lookupQty (addToCart c pid q1).2 pid = q1 := by
      simp [lookupQty, hget1]
    rw [h2, hl1, cartGet_setEntry_self]

/-- Witness for C3 at pid p2 on the empty cart with q1 = 2, q2 = 3. -/
theorem addToCart_spec_witness :
    catalogHas "p2" = true
    ∧ cartGet ([] : Cart) "p2" = none
    ∧ ((addToCart ([] : Cart) "p2" 2).1 = .ok (addToCart ([] : Cart) "p2" 2).2
        ∧ cartGet (addToCart ([] : Cart) "p2" 2).2 "p2" = some (lookupQty [] "p2" + 2))
    ∧ cartGet (addToCart (addToCart ([] : Cart) "p2" 2).2 "p2" 3).2 "p2" = some (2 + 3) :=
  ⟨by decide, by decide,
    (addToCart_spec [] "p2" 2 3).2.1 (by decide),
    (addToCart_spec [] "p2" 2 3).2.2 (by decide) (by decide)⟩

/-- C4: set-quantity removes the entry when the quantity is non-positive
(and a subsequent cart read shows no line item for that id), and otherwise
overwrites the stored quantity with exactly the given value, for an
arbitrary id with no catalog check. -/
theorem setCartQuantity_spec (c : Cart) (pid : String) (qty : Int) :
    (qty ≤ 0 →
      cartGet (setCartQuantity c pid qty) pid = none
      ∧ ∀ it ∈ (getCart (setCartQuantity c pid qty)).items, it.id ≠ pid)
    ∧ (0 < qty → cartGet (setCartQuantity c pid qty) pid = some qty) := by
  constructor
  · intro hq
    have hset : setCartQuantity c pid qty = eraseEntry c pid := by
      simp [setCartQuantity, hq]
    have hnone : cartGet (setCartQuantity c pid qty) pid = none := by
      rw [hset]; exact cartGet_eraseEntry_self c pid
    refine ⟨hnone, ?_⟩
    intro it hit
    have hkeys := (cartGet_eq_none_iff _ pid).mp hnone
    have hitems : (getCart (setCartQuantity c pid qty)).items
        = lineItems (setCartQuantity c pid qty) := by simp [getCart]
    rw [hitems] at hit
    obtain ⟨e, he, rfl⟩ := List.mem_map.mp hit
    rw [mkItem_id]
    exact hkeys e he
  · intro hq
    have hq' : ¬ qty ≤ 0 := by omega
    simp [setCartQuantity, hq', cartGet_setEntry_self]

/-- Witness for C4 at the cart {p1: 2, zz: 4} with pid zz: quantity 0
removes the entry, quantity 9 overwrites it. -/
theorem setCartQuantity_spec_witness :
    (cartGet (setCartQuantity [("p1", 2), ("zz", 4)] "zz" 0) "zz" = none
      ∧ ∀ it ∈ (getCart (setCartQuantity [("p1", 2), ("zz", 4)] "zz" 0)).items,
          it.id ≠ "zz")
    ∧ cartGet (setCartQuantity [("p1", 2), ("zz", 4)] "zz" 9) "zz" = some 9 :=
  ⟨(setCartQuantity_spec [("p1", 2), ("zz", 4)] "zz" 0).1 (by decide),
    (setCartQuantity_spec [("p1", 2), ("zz", 4)] "zz" 9).2 (by decide)⟩

/-- C5 counterexample: the claim fails as stated — add-to-cart performs no
positivity check on its quantity argument, so adding a negative quantity
to an (all-positive) empty cart stores the entry p1 with quantity -1. -/
theorem addToCart_breaks_allPos :
    AllPos ([] : Cart)
    ∧ (addToCart [] "p1" (-1)).2 = [("p1", -1)]
    ∧ ¬ AllPos (addToCart [] "p1" (-1)).2 := by
  have hpost : (addToCart [] "p1" (-1)).2 = [("p1", -1)] := by decide
  refine ⟨?_, hpost, ?_⟩
  · intro e he; simp at he
  · intro hall
    have h := hall ("p1", -1) (by rw [hpost]; exact List.mem_singleton.mpr rfl)
    omega

/-- C5 amended: set-quantity, remove-item and checkout preserve the
positivity invariant unconditionally, and add-item preserves it whenever
the added quantity is positive (as in every UI call, which passes 1). -/
theorem cartOps_preserve_allPos (c : Cart) (pid : String) (qty : Int) (now : Nat)
    (hc : AllPos c) :
    (0 < qty → AllPos (addToCart c pid qty).2)
    ∧ AllPos (setCartQuantity c pid qty)
    ∧ AllPos (removeFromCart c pid)
    ∧ AllPos (checkout c now).2 := by
  refine ⟨?_, ?_, ?_, ?_⟩
  · intro hq e he
    cases hfind : MOCK_PRODUCTS.find? (fun p => p.id == pid) with
    | none =>
      simp only [addToCart, hfind] at he
      exact hc e he
    | some p =>
      simp only [addToCart, hfind] at he
      rcases mem_setEntry he with rfl | hmem
      · cases hg : cartGet c pid with
        | none => simp only [lookupQty, hg, Option.getD_none]; omega
        | some v =>
          have hv := hc (pid, v) (cartGet_some_mem hg)
          simp only [lookupQty, hg, Option.getD_some]
          simp only at hv
          omega
      · exact hc e hmem
  · by_cases hq : qty ≤ 0
    · intro e he
      simp only [setCartQuantity, if_pos hq] at he
      exact hc e (mem_eraseEntry he)
    · intro e he
      simp only [setCartQuantity, if_neg hq] at he
      rcases mem_setEntry he with rfl | hmem
      · simp only; omega
      · exact hc e hmem
  · intro e he
    exact hc e (mem_eraseEntry (c := c) he)
  · by_cases hlen : c.length = 0
    · intro e he
      simp only [checkout, if_pos hlen] at he
      exact hc e he
    · intro e he
      simp only [checkout, if_neg hlen] at he
      simp at he

/-- Witness for the amended C5 at the cart {p1: 2} with quantity 3. -/
theorem cartOps_preserve_allPos_witness :
    AllPos ([("p1", 2)] : Cart)
    ∧ ((0 < (3 : Int) → AllPos (addToCart [("p1", 2)] "p1" 3).2)
      ∧ AllPos (setCartQuantity [("p1", 2)] "p1" 3)
      ∧ AllPos (removeFromCart [("p1", 2)] "p1")
      ∧ AllPos (checkout [("p1", 2)] 7).2) :=
  ⟨by intro e he; simp at he; simp [he],
    cartOps_preserve_allPos [("p1", 2)] "p1" 3 7
      (by intro e he; simp at he; simp [he])⟩

/-- C6: login with any non-empty email and password succeeds, a subsequent
current-user query returns that email, after logout the query returns an
absent result, and a second logout from the logged-out state is the same
state with no error. -/
theorem login_logout_spec (st : SessionState) (email password : String) (now : Nat)
    (he : email ≠ "") (hp : password ≠ "") :
    (login st email password now).1.success = true
    ∧ getCurrentUser (login st email password now).2.fh_user = some { email := email }
    ∧ getCurrentUser (logout (login st email password now).2).fh_user = none
    ∧ logout (logout (login st email password now).2)
      = logout (login st email password now).2 :=
  ⟨rfl, rfl, rfl, rfl⟩

/-- Witness for C6 at a concrete session. -/
theorem login_logout_spec_witness :
    ("a@b.c" : String) ≠ ""
    ∧ ("pw" : String) ≠ ""
    ∧ ((login ⟨.absent, .absent⟩ "a@b.c" "pw" 7).1.success = true
      ∧ getCurrentUser (login ⟨.absent, .absent⟩ "a@b.c" "pw" 7).2.fh_user
        = some { email := "a@b.c" }
      ∧ getCurrentUser (logout (login ⟨.absent, .absent⟩ "a@b.c" "pw" 7).2).fh_user
        = none
      ∧ logout (logout (login ⟨.absent, .absent⟩ "a@b.c" "pw" 7).2)
        = logout (login ⟨.absent, .absent⟩ "a@b.c" "pw" 7).2) :=
  ⟨by decide, by decide,
    login_logout_spec ⟨.absent, .absent⟩ "a@b.c" "pw" 7 (by decide) (by decide)⟩

/-- C7: remove-item deletes the entry for the id when present, is a no-op
raising no error when absent, and removing twice equals removing once. -/
theorem removeFromCart_spec (c : Cart) (pid : String) :
    cartGet (removeFromCart c pid) pid = none
    ∧ (cartGet c pid = none → removeFromCart c pid = c)
    ∧ removeFromCart (removeFromCart c pid) pid = removeFromCart c pid :=
  ⟨cartGet_eraseEntry_self c pid,
    fun h => eraseEntry_of_absent h,
    eraseEntry_idem c pid⟩

/-- Witness for C7 at the cart {p1: 2} with the absent id p9. -/
theorem removeFromCart_spec_witness :
    cartGet ([("p1", 2)] : Cart) "p9" = none
    ∧ removeFromCart [("p1", 2)] "p9" = [("p1", 2)] :=
  ⟨by decide, (removeFromCart_spec [("p1", 2)] "p9").2.1 (by decide)⟩

/-- C8: a stored value under the cart key or the session user key that
fails to parse (or is absent) makes the corresponding read return the
empty/absent state rather than an error; both reads are total. -/
theorem corrupt_storage_reads_empty (raw : String) :
    readCart (.corrupt raw) = ([] : Cart)
    ∧ readCart .absent = ([] : Cart)
    ∧ getCurrentUser (.corrupt raw) = none
    ∧ getCurrentUser .absent = none :=
  ⟨rfl, rfl, rfl, rfl⟩

/-- C9: the cart {p1: 2, p3: 1} prices to subtotal 150.00, shipping 5.00,
tax 10.50 and total 165.50. -/
theorem example_cart_pricing :
    (getCart [("p1", 2), ("p3", 1)]).subtotal = 150
    ∧ (getCart [("p1", 2), ("p3", 1)]).shipping = 5
    ∧ (getCart [("p1", 2), ("p3", 1)]).tax = 21 / 2
    ∧ (getCart [("p1", 2), ("p3", 1)]).total = 331 / 2 := by
  have h1 : mkItem ("p1", 2)
      = { id := "p1", name := "Classic Hoodie", price := 45,
          img := some "images/product1.jpg", qty := 2, total := 90 } := by
    simp [mkItem, MOCK_PRODUCTS, List.find?]
    norm_num [round2]
  have h3 : mkItem ("p3", 1)
      = { id := "p3", name := "Sporty Sneakers", price := 60,
          img := some "images/product3.jpg", qty := 1, total := 60 } := by
    simp [mkItem, MOCK_PRODUCTS, List.find?]
    norm_num [round2]
  have hraw : rawSubtotal [("p1", 2), ("p3", 1)] = 150 := by
    simp [rawSubtotal, lineItems, h1, h3]
    norm_num
  refine ⟨?_, ?_, ?_, ?_⟩ <;>
    simp [getCart, hraw, lineItems] <;>
    norm_num [round2]

/-- C10: when add-to-cart fails with the NotFound condition, the persisted
mapping is left unchanged — the failed call has no side effect on storage. -/
theorem addToCart_notFound_no_side_effect (c : Cart) (pid : String) (qty : Int)
    (h : catalogHas pid = false) :
    addToCart c pid qty = (.error .notFound, c) := by
  cases hfind : MOCK_PRODUCTS.find? (fun p => p.id == pid) with
  | none => simp [addToCart, hfind]
  | some p => simp [catalogHas, hfind] at h

/-- Witness for C10 at the unknown id p9 on the cart {p1: 2}. -/
theorem addToCart_notFound_no_side_effect_witness :
    catalogHas "p9" = false
    ∧ addToCart [("p1", 2)] "p9" 4 = (.error .notFound, [("p1", 2)]) :=
  ⟨by decide, addToCart_notFound_no_side_effect [("p1", 2)] "p9" 4 (by decide)⟩
